import Mathlib

/-!
Verification of the DrexelProtocol concurrent FTP-over-UDP receiver.

Shallow embedding of:
* the wire-protocol constants and PDU header (`src/drexelprotocol/msgtype.h`,
  `pdu.h`, `connection.h`);
* `Connection::recvDgram` and `Connection::sendDgram` (`connection.h`);
* the buffered Go-style channel (`src/channel/channel.h`);
* the writer task body `FTPFileWriter::serverLoop` and the dispatcher
  `FTPServer::listen` (`server.cpp`);
* the per-peer sequence-counter update shared by `recvDgram` and `listen`;
* the work-steal queue and `ThreadPool::popOtherThreads` /
  `ThreadPool::runPendingTask` (`workstealqueue.h`, `threadpool.cpp`).

Network and file-system side effects are made explicit: a transmitted PDU
becomes a value in a `responses`/`events` list, a `sendto` result or a file
`open` result becomes a parameter, and the condition variables of the channel
are modelled by the set of condition variables each operation notifies.
`sendRaw` is modelled as transmitting the full requested byte count (the
success path of `sendto`); partial-send handling only changes return codes,
which the claims do not touch.
-/

namespace FTPVerif

/-! ### Message types (msgtype.h) -/

def INI : Int := 0
def ACK : Int := 1
def SND : Int := 2
def CONNECT : Int := 4
def CLOSE : Int := 8
def NACK : Int := 16
def FRAGMENT : Int := 32
def ERROR : Int := 64
def SNDACK : Int := 3
def CNTACK : Int := 5
def CLOSEACK : Int := 9
def SENDFRAGMENT : Int := 34
def SENDFRAGMENTACK : Int := 35

/-! ### Connection constants (connection.h)

`sizeofPDU` is `sizeof(PDU)`: five packed 32-bit fields, 20 bytes. -/

def MAX_BUFF_SZ : Int := 512
def sizeofPDU : Int := 20
def MAX_DGRAM_SZ : Int := MAX_BUFF_SZ + sizeofPDU
def NO_ERROR : Int := 0
def ERROR_GENERAL : Int := -1
def ERROR_PROTOCOL : Int := -2
def ERROR_BAD_DGRAM : Int := -32
def BUFF_UNDERSIZED : Int := -4
def BUFF_OVERSIZED : Int := -8
def CONNECTION_CLOSED : Int := -16

/-- The PDU transport header (pdu.h).  In the C struct `seqnum` is an `int`
that carries the value of the `unsigned int` sequence counter; we model the
counter values as naturals below `2^32`. -/
structure PDU where
  proto_ver : Int := 1
  mtype : Int
  seqnum : Nat
  dgram_sz : Int
  err_num : Int
deriving DecidableEq

/-- Reduction modulo `2^32`, the wrap of the C `unsigned int` counter. -/
def wrap32 (n : Nat) : Nat := n % 2 ^ 32

/-- `seqNum += dgram_sz` where `seqNum` is `unsigned int` and `dgram_sz` is
(signed) `int`: unsigned wraparound addition. -/
def addWrap (s : Nat) (d : Int) : Nat := (((s : Int) + d) % (2 ^ 32 : Int)).toNat

/-! ### Connection::recvDgram (connection.h, lines 478-553)

Inputs: `cap` is the caller's `buffSz`; `bytesIn` the byte count returned by
`recvRaw`; `inPdu` the header `memcpy`d out of the buffer; `seq` the current
sequence counter.  Output: the updated counter, the list of PDUs transmitted
with `sendRaw` (in transmission order), the return value, and whether the
socket was closed.  Note the C error branch does not return after a
successful `sendRaw`, so control falls through into the `switch` on
`inPdu.mtype`. -/

structure RecvOut where
  seq : Nat
  responses : List PDU
  ret : Int
  closedSock : Bool
deriving DecidableEq

def recvDgram (cap bytesIn : Int) (inPdu : PDU) (seq : Nat) : RecvOut :=
  if MAX_DGRAM_SZ < cap then
    { seq := seq, responses := [], ret := BUFF_OVERSIZED, closedSock := false }
  else
    let errCode0 := if bytesIn < sizeofPDU then ERROR_BAD_DGRAM else NO_ERROR
    let errCode := if inPdu.dgram_sz > cap then BUFF_UNDERSIZED else errCode0
    let seq' := if errCode = NO_ERROR then
        (if inPdu.dgram_sz = 0 then wrap32 (seq + 1) else addWrap seq inPdu.dgram_sz)
      else wrap32 (seq + 1)
    let mkResp : Int → PDU := fun m =>
      { mtype := m, seqnum := seq', dgram_sz := 0, err_num := errCode }
    if errCode ≠ NO_ERROR then
      -- sends the ERROR PDU, then falls through into the switch
      if inPdu.mtype = SND then
        { seq := seq', responses := [mkResp ERROR, mkResp SNDACK],
          ret := bytesIn, closedSock := false }
      else if inPdu.mtype = CLOSE then
        { seq := seq', responses := [mkResp ERROR, mkResp CLOSEACK],
          ret := CONNECTION_CLOSED, closedSock := true }
      else
        { seq := seq', responses := [mkResp ERROR],
          ret := ERROR_PROTOCOL, closedSock := false }
    else if Int.land inPdu.mtype FRAGMENT = FRAGMENT then
      { seq := seq', responses := [mkResp SENDFRAGMENTACK],
        ret := bytesIn, closedSock := false }
    else if inPdu.mtype = SND then
      { seq := seq', responses := [mkResp SNDACK],
        ret := bytesIn, closedSock := false }
    else if inPdu.mtype = CLOSE then
      { seq := seq', responses := [mkResp CLOSEACK],
        ret := CONNECTION_CLOSED, closedSock := true }
    else
      { seq := seq', responses := [], ret := ERROR_PROTOCOL, closedSock := false }

/-! ### Connection::sendDgram (connection.h, lines 612-654)

`payload` is the byte sequence behind `sbuff`, `sbuff_sz` the argument `n`;
`netSent` is the byte count `sendto` reports for the one datagram
transmitted (`bytesOut`).  The constructed frame (header fields that the
code assigns, plus the payload bytes `memcpy`d after the header) is returned
together with the advanced counter and the C return value
`bytesOut - sizeof(PDU)`. -/

structure WireFrame where
  mtype : Int
  seqnum : Nat
  dgram_sz : Int
  payload : List Nat
deriving DecidableEq

structure SendDgramOut where
  frame : Option WireFrame
  seq : Nat
  ret : Int
deriving DecidableEq

def sendDgram (isAddrInit : Bool) (payload : List Nat) (sbuff_sz : Int)
    (seq : Nat) (netSent : Int) : SendDgramOut :=
  if isAddrInit = false then
    { frame := none, seq := seq, ret := ERROR_GENERAL }
  else
    let mt := if sbuff_sz > MAX_BUFF_SZ then SENDFRAGMENT else SND
    let dsz := if sbuff_sz > MAX_BUFF_SZ then MAX_BUFF_SZ else sbuff_sz
    let copied := payload.take dsz.toNat
    let seq' := if dsz = 0 then wrap32 (seq + 1) else addWrap seq dsz
    { frame := some { mtype := mt, seqnum := seq, dgram_sz := dsz, payload := copied },
      seq := seq',
      ret := netSent - sizeofPDU }

/-! ### The buffered channel (channel.h, lines 190-274)

The monitor state is the `open` flag, the FIFO buffer and `maxSize`.  Each
operation is given its sequential semantics: an operation that would wait on
a condition variable yields `blocked`, a `throw std::runtime_error` yields
`threw`.  `bcClose` additionally returns the list of condition variables it
notifies (`close` runs `receiver.notify_all()` and nothing else). -/

structure BufChan (X : Type) where
  opn : Bool
  buffer : List X
  maxSize : Nat
deriving DecidableEq

/-- `FTPFileWriter`'s channel: `makeChannel<std::string>(20)` picks the
buffered variant with `maxSize = 20` (channel.h line 99-104, server.cpp
line 68). -/
def mkWriterChannel (X : Type) : BufChan X :=
  { opn := true, buffer := [], maxSize := 20 }

inductive SendRes (X : Type) where
  | ok (c : BufChan X)
  | blocked
  | threw
deriving DecidableEq

inductive RecvRes (X : Type) where
  | ok (v : X) (c : BufChan X)
  | blocked
  | threw
deriving DecidableEq

/-- The two condition variables of `bufferedChannel`. -/
inductive CV where
  | sender
  | receiver
deriving DecidableEq

def bcSend {X : Type} (c : BufChan X) (v : X) : SendRes X :=
  if c.opn = false then .threw
  else if c.buffer.length < c.maxSize then .ok { c with buffer := c.buffer ++ [v] }
  else .blocked

def bcReceive {X : Type} (c : BufChan X) : RecvRes X :=
  match c.buffer with
  | [] => if c.opn then .blocked else .threw
  | v :: rest => .ok v { c with buffer := rest }

def bcClose {X : Type} (c : BufChan X) : BufChan X × List CV :=
  ({ c with opn := false }, [CV.receiver])

def bcIsClosed {X : Type} (c : BufChan X) : Bool :=
  !c.opn && c.buffer.isEmpty

/-! Traces of send/receive operations against one channel, recording the
values successfully enqueued and the values returned by `receive`.  A
`blocked` or `threw` operation leaves the state unchanged (the blocked
thread has not yet completed its call). -/

inductive ChanOp (X : Type) where
  | send (v : X)
  | receive
deriving DecidableEq

structure ChanTrace (X : Type) where
  chan : BufChan X
  sentOk : List X
  received : List X
deriving DecidableEq

def chanStep {X : Type} (t : ChanTrace X) (op : ChanOp X) : ChanTrace X :=
  match op with
  | .send v =>
    match bcSend t.chan v with
    | .ok c' => { chan := c', sentOk := t.sentOk ++ [v], received := t.received }
    | _ => t
  | .receive =>
    match bcReceive t.chan with
    | .ok v c' => { chan := c', sentOk := t.sentOk, received := t.received ++ [v] }
    | _ => t

def runOps (X : Type) (ops : List (ChanOp X)) : ChanTrace X :=
  ops.foldl chanStep { chan := mkWriterChannel X, sentOk := [], received := [] }

/-! ### FTPFileWriter::serverLoop (server.cpp, lines 84-118)

One loop iteration on a received message: the leading bytes are read as the
`FTP_PDU` application header; the output file is opened in truncate mode when
`status == Status::NEW` (`NEW = 0`, ftp.h) and append mode otherwise; on a
failed open the code prints the error and calls `exit(-1)`; otherwise the
bytes after the application header are written.  The file system is the
parameter `canOpen`. -/

inductive Mode where
  | trunc
  | app
deriving DecidableEq

/-- One message as the writer interprets it: the `FTP_PDU` fields it reads
plus the bytes after the application header (`buff.erase(0, sizeof(FTP_PDU))`
leaves exactly those). -/
structure FTPMsg where
  fileName : String
  status : Int
  rest : String
deriving DecidableEq

inductive WriterStep where
  | wrote (file : String) (mode : Mode) (data : String)
  | procExit (code : Int)
deriving DecidableEq

def serverLoopBody (canOpen : String → Mode → Bool) (msg : FTPMsg) : WriterStep :=
  let mode := if msg.status = 0 then Mode.trunc else Mode.app
  if canOpen msg.fileName mode then .wrote msg.fileName mode msg.rest
  else .procExit (-1)

/-- Draining the buffered backlog of a closed channel: `serverLoop` keeps
receiving until the channel is closed-and-empty, handling each message with
`serverLoopBody`; `exit(-1)` aborts everything.  Returns the file writes
performed (in order) and `some code` when the process was exited. -/
def serverLoopDrain (canOpen : String → Mode → Bool) :
    List FTPMsg → List WriterStep × Option Int
  | [] => ([], none)
  | m :: ms =>
    match serverLoopBody canOpen m with
    | .procExit code => ([], some code)
    | w =>
      let (rest, ex) := serverLoopDrain canOpen ms
      (w :: rest, ex)

/-! ### FTPServer::listen (server.cpp, lines 155-274)

The peer's socket address; the key of both `dpc->seqNums` and `ftpWriters`
is `inet_ntoa(dpc->getOutSockAddr()->addr.sin_addr)` — the dotted-quad
rendering of the IPv4 address, never the port. -/

structure SockAddrIn where
  sin_addr : Nat
  sin_port : Nat
deriving DecidableEq

/-- `inet_ntoa`: dotted-quad string of the 32-bit address (most significant
byte of the network-order value first). -/
def inet_ntoa (a : Nat) : String :=
  toString (a / 2 ^ 24 % 256) ++ "." ++ toString (a / 2 ^ 16 % 256) ++ "."
    ++ toString (a / 2 ^ 8 % 256) ++ "." ++ toString (a % 256)

/-- Observable actions of one `listen` iteration, in program order.
`sent` carries the transmitted PDU's `mtype`, its `err_num` (`none` in the
connect branch, where the C code leaves the field uninitialized) and its
`seqnum`. -/
inductive SrvEvent where
  | sent (mtype : Int) (err_num : Option Int) (seqnum : Nat)
  | writerCreated (addr : String)
  | chanClosed (addr : String)
  | pushed (addr : String) (size : Int)
deriving DecidableEq

def updMap (m : String → Nat) (k : String) (v : Nat) : String → Nat :=
  fun k' => if k' = k then v else m k'

structure ListenOut where
  seqNums : String → Nat
  events : List SrvEvent

/-- One iteration of `FTPServer::listen` after `recvRaw` returned `rcvSz`
bytes whose header is `inPdu`, from `sock`.  A datagram of exactly
`sizeof(PDU)` bytes is taken as a connect: the per-peer counter is set to 1,
a `CNTACK` with `seqnum = 1` is sent and a writer is created.  Any other
datagram updates the counter, sends at most one response
(`ERROR` / `SENDFRAGMENTACK` / `SNDACK` / `CLOSEACK`; the `CLOSE` case also
closes the writer's channel and falls through into the `default` label,
which only logs), and then unconditionally pushes the payload slice
`[sizeof(PDU), rcvSz)` with `pushToChannel`. -/
def FTPServer_listen (sock : SockAddrIn) (rcvSz : Int) (inPdu : PDU)
    (seqNums : String → Nat) : ListenOut :=
  let address := inet_ntoa sock.sin_addr
  if rcvSz = sizeofPDU then
    let m' := updMap seqNums address 1
    { seqNums := m',
      events := [.sent CNTACK none 1, .writerCreated address] }
  else
    let buffSz : Int := MAX_DGRAM_SZ
    let errCode0 := if rcvSz < sizeofPDU then ERROR_BAD_DGRAM else NO_ERROR
    let errCode := if inPdu.dgram_sz > buffSz then BUFF_UNDERSIZED else errCode0
    let s0 := seqNums address
    let s' := if errCode = NO_ERROR then
        (if inPdu.dgram_sz = 0 then wrap32 (s0 + 1) else addWrap s0 inPdu.dgram_sz)
      else wrap32 (s0 + 1)
    let m' := updMap seqNums address s'
    let resp : Int → SrvEvent := fun mt => .sent mt (some errCode) s'
    let core : List SrvEvent :=
      if errCode ≠ NO_ERROR then [resp ERROR]
      else if Int.land inPdu.mtype FRAGMENT = FRAGMENT then [resp SENDFRAGMENTACK]
      else if inPdu.mtype = SND then [resp SNDACK]
      else if inPdu.mtype = CLOSE then [resp CLOSEACK, .chanClosed address]
      else []
    { seqNums := m',
      events := core ++ [.pushed address (rcvSz - sizeofPDU)] }

def isPushed : SrvEvent → Bool
  | .pushed _ _ => true
  | _ => false

def isSent : SrvEvent → Bool
  | .sent _ _ _ => true
  | _ => false

/-- The peer-map key an event touches, if any. -/
def eventAddr : SrvEvent → Option String
  | .sent _ _ _ => none
  | .writerCreated a => some a
  | .chanClosed a => some a
  | .pushed a _ => some a

/-! ### The per-peer sequence-counter update

Both `Connection::recvDgram` (connection.h lines 489-507) and
`FTPServer::listen` (server.cpp lines 205-227) run the same update: compute
`errCode` from the received size and the declared `dgram_sz`, then advance
the (per-peer) counter by 1 on a zero-sized or erroneous frame and by
`dgram_sz` otherwise.  `cap` is the receive-buffer size against which
`dgram_sz` is checked (`sizeof(_buffer) = 532` in `listen`). -/

structure Frame where
  rcvSz : Int
  dgram_sz : Int
deriving DecidableEq

def seqStep (cap : Int) (s : Nat) (f : Frame) : Nat :=
  let errCode0 := if f.rcvSz < sizeofPDU then ERROR_BAD_DGRAM else NO_ERROR
  let errCode := if f.dgram_sz > cap then BUFF_UNDERSIZED else errCode0
  if errCode = NO_ERROR then
    (if f.dgram_sz = 0 then wrap32 (s + 1) else addWrap s f.dgram_sz)
  else wrap32 (s + 1)

def streamRun (cap : Int) (s : Nat) (fs : List Frame) : Nat :=
  fs.foldl (seqStep cap) s

/-- A frame passes both validation checks. -/
def frameValid (cap : Int) (f : Frame) : Bool :=
  decide (sizeofPDU ≤ f.rcvSz) && decide (f.dgram_sz ≤ cap)

/-- The amount a valid frame adds to the (unwrapped) counter. -/
def frameInc (f : Frame) : Nat :=
  if f.dgram_sz = 0 then 1 else f.dgram_sz.toNat

def incSum (fs : List Frame) : Nat := (fs.map frameInc).sum

def sumDgram (fs : List Frame) : Nat := (fs.map (fun f => f.dgram_sz.toNat)).sum

def countZero (fs : List Frame) : Nat := (fs.filter (fun f => f.dgram_sz = 0)).length

/-! ### WorkStealQueue and the worker loop (workstealqueue.h, threadpool.cpp)

A deque with its front at the list head: the owner pushes and pops at the
front, a thief steals at the back. -/

structure WSQ (T : Type) where
  deque : List T
deriving DecidableEq

def wsqPush {T : Type} (q : WSQ T) (x : T) : WSQ T := ⟨x :: q.deque⟩

def wsqTryPop {T : Type} (q : WSQ T) : Option (T × WSQ T) :=
  match q.deque with
  | [] => none
  | x :: rest => some (x, ⟨rest⟩)

def wsqTrySteal {T : Type} (q : WSQ T) : Option (T × WSQ T) :=
  match q.deque.getLast? with
  | none => none
  | some x => some (x, ⟨q.deque.dropLast⟩)

/-- The deque indices visited by the steal loop of
`ThreadPool::popOtherThreads` (threadpool.cpp lines 89-100):
`for (i = 0; i < queues.size(); ++i) index = (myIndex + i + 1) % queues.size()`. -/
def stealOrder (n myIndex : Nat) : List Nat :=
  (List.range n).map (fun i => (myIndex + i + 1) % n)

def tryStealAt {T : Type} (queues : List (WSQ T)) (idx : Nat) : Option T :=
  match queues.get? idx with
  | none => none
  | some q => (wsqTrySteal q).map (fun p => p.1)

/-- `ThreadPool::popOtherThreads`: the first successful back-end steal along
the loop's index sequence, together with the deque index it came from. -/
def popOtherThreads (T : Type) (queues : List (WSQ T)) (myIndex : Nat) :
    Option (Nat × T) :=
  (List.range queues.length).findSome? (fun i =>
    let index := (myIndex + i + 1) % queues.length
    (tryStealAt queues index).map (fun t => (index, t)))

/-- Where `ThreadPool::runPendingTask` (threadpool.cpp lines 102-113) finds
its task: own deque front, else global FIFO front, else a steal. -/
inductive TaskSource (T : Type) where
  | fromLocal (t : T)
  | fromGlobal (t : T)
  | stolen (idx : Nat) (t : T)
  | idle
deriving DecidableEq

def runPendingTask {T : Type} (localQ : WSQ T) (globalQ : List T)
    (queues : List (WSQ T)) (myIndex : Nat) : TaskSource T :=
  match wsqTryPop localQ with
  | some (t, _) => .fromLocal t
  | none =>
    match globalQ with
    | t :: _ => .fromGlobal t
    | [] =>
      match popOtherThreads T queues myIndex with
      | some (i, t) => .stolen i t
      | none => .idle

/-- A non-error `mtype` for which the receiver's dispatch sends an ACK:
a fragment, `SND`, or `CLOSE`. -/
def ackable (m : Int) : Bool :=
  decide (Int.land m FRAGMENT = FRAGMENT) || decide (m = SND) || decide (m = CLOSE)

/-- Invariant of a channel trace started from the writer's channel. -/
def chanInv {X : Type} (t : ChanTrace X) : Prop :=
  t.chan.opn = true ∧ t.chan.maxSize = 20 ∧ t.chan.buffer.length ≤ 20
    ∧ t.sentOk = t.received ++ t.chan.buffer

/-! ### Helper lemmas -/

lemma addWrap_ofNat (s : Nat) (d : Int) (hd : 0 ≤ d) :
    addWrap s d = (s + d.toNat) % 2 ^ 32 := by
  obtain ⟨n, rfl⟩ := Int.eq_ofNat_of_zero_le hd
  unfold addWrap
  omega

lemma seqStep_valid (cap : Int) (s : Nat) (f : Frame)
    (h : frameValid cap f = true) (hd : 0 ≤ f.dgram_sz) :
    seqStep cap s f = (s + frameInc f) % 2 ^ 32 := by
  simp only [frameValid, Bool.and_eq_true, decide_eq_true_eq] at h
  obtain ⟨h1, h2⟩ := h
  simp only [seqStep, frameInc, wrap32]
  rw [if_neg (show ¬ f.dgram_sz > cap by omega),
    if_neg (show ¬ f.rcvSz < sizeofPDU by omega), if_pos rfl]
  by_cases h0 : f.dgram_sz = 0
  · simp [h0]
  · rw [if_neg h0, if_neg h0, addWrap_ofNat _ _ hd]

lemma seqStep_invalid (cap : Int) (s : Nat) (f : Frame)
    (h : frameValid cap f = false) :
    seqStep cap s f = (s + 1) % 2 ^ 32 := by
  simp only [frameValid, Bool.and_eq_false_iff, decide_eq_false_iff_not, not_le] at h
  simp only [seqStep, wrap32]
  rcases h with h | h
  · rw [if_pos h]
    by_cases h2 : f.dgram_sz > cap
    · rw [if_pos h2, if_neg (by unfold BUFF_UNDERSIZED NO_ERROR; omega)]
    · rw [if_neg h2, if_neg (by unfold ERROR_BAD_DGRAM NO_ERROR; omega)]
  · rw [if_pos h, if_neg (by unfold BUFF_UNDERSIZED NO_ERROR; omega)]

lemma streamRun_valid (cap : Int) :
    ∀ (fs : List Frame) (s : Nat), s < 2 ^ 32 →
    (∀ f ∈ fs, frameValid cap f = true ∧ 0 ≤ f.dgram_sz) →
    streamRun cap s fs = (s + incSum fs) % 2 ^ 32
  | [], s, hs, _ => by
    simp only [streamRun, List.foldl_nil, incSum, List.map_nil, List.sum_nil, Nat.add_zero]
    omega
  | f :: fs, s, hs, h => by
    have hf := h f (by simp)
    have hstep : seqStep cap s f = (s + frameInc f) % 2 ^ 32 :=
      seqStep_valid cap s f hf.1 hf.2
    have hrest := streamRun_valid cap fs (seqStep cap s f)
      (by rw [hstep]; exact Nat.mod_lt _ (by norm_num))
      (fun g hg => h g (by simp [hg]))
    calc streamRun cap s (f :: fs) = streamRun cap (seqStep cap s f) fs := rfl
      _ = (seqStep cap s f + incSum fs) % 2 ^ 32 := hrest
      _ = ((s + frameInc f) % 2 ^ 32 + incSum fs) % 2 ^ 32 := by rw [hstep]
      _ = (s + frameInc f + incSum fs) % 2 ^ 32 := Nat.mod_add_mod _ _ _
      _ = (s + incSum (f :: fs)) % 2 ^ 32 := by
          simp [incSum, Nat.add_assoc]

lemma incSum_cons (f : Frame) (fs : List Frame) :
    incSum (f :: fs) = frameInc f + incSum fs := by
  simp [incSum]

lemma sumDgram_cons (f : Frame) (fs : List Frame) :
    sumDgram (f :: fs) = f.dgram_sz.toNat + sumDgram fs := by
  simp [sumDgram]

lemma countZero_cons (f : Frame) (fs : List Frame) :
    countZero (f :: fs) = (if f.dgram_sz = 0 then 1 else 0) + countZero fs := by
  simp only [countZero, List.filter_cons]
  by_cases h0 : f.dgram_sz = 0
  · simp [h0]
    omega
  · simp [h0]

lemma incSum_split :
    ∀ (fs : List Frame), incSum fs = sumDgram fs + countZero fs
  | [] => rfl
  | f :: fs => by
    have ih := incSum_split fs
    rw [incSum_cons, sumDgram_cons, countZero_cons, ih]
    unfold frameInc
    by_cases h0 : f.dgram_sz = 0
    · simp [h0]
      omega
    · rw [if_neg h0, if_neg h0]
      omega

lemma incSum_take_mono (fs : List Frame) : Monotone (fun i => incSum (fs.take i)) := by
  apply monotone_nat_of_le_succ
  intro i
  rw [List.take_succ]
  simp [incSum]

lemma chanInv_step {X : Type} (t : ChanTrace X) (op : ChanOp X)
    (h : chanInv t) : chanInv (chanStep t op) := by
  obtain ⟨h1, h2, h3, h4⟩ := h
  cases op with
  | send v =>
    simp only [chanStep]
    by_cases hlt : t.chan.buffer.length < t.chan.maxSize
    · have hres : bcSend t.chan v
          = SendRes.ok { t.chan with buffer := t.chan.buffer ++ [v] } := by
        simp [bcSend, h1, hlt]
      rw [hres]
      refine ⟨h1, h2, ?_, ?_⟩
      · have hlt20 : t.chan.buffer.length < 20 := by rw [← h2]; exact hlt
        show (t.chan.buffer ++ [v]).length ≤ 20
        rw [List.length_append]
        simp only [List.length_cons, List.length_nil]
        omega
      · show t.sentOk ++ [v] = t.received ++ (t.chan.buffer ++ [v])
        rw [h4, List.append_assoc]
    · have hres : bcSend t.chan v = SendRes.blocked := by
        simp [bcSend, h1, hlt]
      rw [hres]
      exact ⟨h1, h2, h3, h4⟩
  | receive =>
    cases hb : t.chan.buffer with
    | nil =>
      have hres : bcReceive t.chan = RecvRes.blocked := by
        simp [bcReceive, hb, h1]
      simp only [chanStep]
      rw [hres]
      exact ⟨h1, h2, h3, h4⟩
    | cons x rest =>
      have hres : bcReceive t.chan = RecvRes.ok x { t.chan with buffer := rest } := by
        simp [bcReceive, hb]
      simp only [chanStep]
      rw [hres]
      refine ⟨h1, h2, ?_, ?_⟩
      · have h3' : rest.length + 1 ≤ 20 := by
          rw [hb] at h3
          simpa using h3
        show rest.length ≤ 20
        omega
      · show t.sentOk = (t.received ++ [x]) ++ rest
        rw [h4, hb, List.append_assoc, List.singleton_append]

lemma chanInv_run {X : Type} (ops : List (ChanOp X)) : chanInv (runOps X ops) := by
  have base : chanInv ({ chan := mkWriterChannel X, sentOk := [], received := [] } : ChanTrace X) := by
    refine ⟨rfl, rfl, by simp [mkWriterChannel], by simp [mkWriterChannel]⟩
  rw [runOps]
  generalize ({ chan := mkWriterChannel X, sentOk := [], received := [] } : ChanTrace X) = t at base ⊢
  induction ops generalizing t with
  | nil => exact base
  | cons op ops ih => exact ih (chanStep t op) (chanInv_step t op base)

/-! Drain of an all-openable backlog. -/

lemma serverLoopDrain_allOpen (canOpen : String → Mode → Bool) :
    ∀ (ms : List FTPMsg),
    (∀ m ∈ ms, canOpen m.fileName (if m.status = 0 then Mode.trunc else Mode.app) = true) →
    serverLoopDrain canOpen ms
      = (ms.map (fun x =>
          WriterStep.wrote x.fileName (if x.status = 0 then Mode.trunc else Mode.app) x.rest),
         none)
  | [], _ => rfl
  | m :: ms, h => by
    have hm := h m (by simp)
    have ih := serverLoopDrain_allOpen canOpen ms (fun g hg => h g (by simp [hg]))
    simp only [serverLoopDrain, serverLoopBody, hm, if_true, List.map_cons, ih]

/-! `findSome?` over a mapped list. -/

lemma findSome?_map {α β γ : Type} (f : α → β) (g : β → Option γ) :
    ∀ (l : List α), (l.map f).findSome? g = l.findSome? (fun a => g (f a))
  | [] => rfl
  | a :: l => by
    simp only [List.map_cons, List.findSome?_cons]
    cases g (f a) with
    | none => exact findSome?_map f g l
    | some c => rfl

/-! ### Claim theorems -/

/-- C4 (confirmed): the writer's channel is a FIFO of capacity exactly 20.
For every sequence of send/receive operations started from the channel the
writer constructs (`makeChannel<std::string>(20)`): the successfully sent
values are exactly the received values followed by the current buffer (so
receives return values in send order), at most 20 values are ever buffered,
a send with fewer than 20 buffered succeeds immediately, a send with 20
buffered blocks, and after one receive completes that blocked send can
succeed. -/
theorem buffered_channel_fifo_capacity (X : Type) (ops : List (ChanOp X)) (v : X) :
    (runOps X ops).sentOk = (runOps X ops).received ++ (runOps X ops).chan.buffer
    ∧ (runOps X ops).chan.buffer.length ≤ 20
    ∧ ((runOps X ops).chan.buffer.length < 20 →
        bcSend (runOps X ops).chan v
          = SendRes.ok { (runOps X ops).chan with
              buffer := (runOps X ops).chan.buffer ++ [v] })
    ∧ ((runOps X ops).chan.buffer.length = 20 →
        bcSend (runOps X ops).chan v = SendRes.blocked)
    ∧ ((runOps X ops).chan.buffer.length = 20 →
        ∃ x c', bcReceive (runOps X ops).chan = RecvRes.ok x c'
          ∧ bcSend c' v = SendRes.ok { c' with buffer := c'.buffer ++ [v] }) := by
  obtain ⟨h1, h2, h3, h4⟩ := chanInv_run (X := X) ops
  refine ⟨h4, h3, ?_, ?_, ?_⟩
  · intro hlt
    simp [bcSend, h1, h2, hlt]
  · intro h20
    simp [bcSend, h1, h2, h20]
  · intro h20
    cases hb : (runOps X ops).chan.buffer with
    | nil => rw [hb] at h20; simp at h20
    | cons x rest =>
      refine ⟨x, { (runOps X ops).chan with buffer := rest }, ?_, ?_⟩
      · simp [bcReceive, hb]
      · have hr : rest.length < 20 := by
          rw [hb] at h20
          simp at h20
          omega
        simp [bcSend, h1, h2, hr]

/-- Witness for C4: after 21 sends on the fresh channel, 20 values are
buffered, the 21st is blocked, and FIFO bookkeeping holds. -/
theorem buffered_channel_fifo_capacity_witness :
    bcSend (runOps Nat (List.replicate 21 (ChanOp.send 7))).chan 9 = SendRes.blocked
    ∧ (runOps Nat (List.replicate 21 (ChanOp.send 7))).sentOk
        = (runOps Nat (List.replicate 21 (ChanOp.send 7))).received
          ++ (runOps Nat (List.replicate 21 (ChanOp.send 7))).chan.buffer :=
  ⟨(buffered_channel_fifo_capacity Nat (List.replicate 21 (ChanOp.send 7)) 9).2.2.2.1
      (by decide),
   (buffered_channel_fifo_capacity Nat (List.replicate 21 (ChanOp.send 7)) 9).1⟩

/-- C5 (corrected): after `close()` the channel is marked closed and all
blocked receivers are woken (`receiver.notify_all()` — blocked senders are
not notified by `close`); every subsequent send throws; a receive succeeds
while buffered values remain and throws once the buffer is drained; and
`isClosed()` is true iff the channel is closed and its buffer is empty. -/
theorem channel_close_semantics_amended (c : BufChan Nat) (v : Nat) :
    (bcClose c).2 = [CV.receiver]
    ∧ bcSend (bcClose c).1 v = SendRes.threw
    ∧ (∀ x rest, (bcClose c).1.buffer = x :: rest →
        bcReceive (bcClose c).1 = RecvRes.ok x { (bcClose c).1 with buffer := rest })
    ∧ ((bcClose c).1.buffer = [] → bcReceive (bcClose c).1 = RecvRes.threw)
    ∧ (bcIsClosed (bcClose c).1 = true ↔ (bcClose c).1.buffer = [])
    ∧ (bcIsClosed c = true ↔ (c.opn = false ∧ c.buffer = [])) := by
  refine ⟨rfl, ?_, ?_, ?_, ?_, ?_⟩
  · simp [bcClose, bcSend]
  · intro x rest hb
    simp only [bcClose] at hb ⊢
    simp [bcReceive, hb]
  · intro hb
    simp only [bcClose] at hb ⊢
    simp [bcReceive, hb]
  · simp [bcClose, bcIsClosed, List.isEmpty_iff]
  · simp only [bcIsClosed, Bool.and_eq_true, Bool.not_eq_true', List.isEmpty_iff]

/-- Witness for C5 at a closed channel holding one buffered value. -/
theorem channel_close_semantics_amended_witness :
    bcSend (bcClose ({ opn := true, buffer := [5], maxSize := 20 } : BufChan Nat)).1 0
        = SendRes.threw
    ∧ bcReceive (bcClose ({ opn := true, buffer := [5], maxSize := 20 } : BufChan Nat)).1
        = RecvRes.ok 5
            { (bcClose ({ opn := true, buffer := [5], maxSize := 20 } : BufChan Nat)).1 with
              buffer := [] } :=
  ⟨(channel_close_semantics_amended { opn := true, buffer := [5], maxSize := 20 } 0).2.1,
   (channel_close_semantics_amended { opn := true, buffer := [5], maxSize := 20 } 0).2.2.1
      5 [] rfl⟩

/-- Counterexample for C5 as stated: `close()` runs only
`receiver.notify_all()`, so a sender blocked on the full buffer is not among
the waiters it wakes. -/
theorem close_does_not_wake_senders :
    CV.sender ∉ (bcClose (mkWriterChannel Nat)).2 := by
  decide

/-- C6 (corrected): when opening the output file named in the FTP header
fails, `serverLoop` reports the error and calls `exit(-1)`: the whole
process terminates, not just the writer task, and no further backlog
message is processed. -/
theorem file_open_failure_process_exit (canOpen : String → Mode → Bool)
    (m : FTPMsg) (ms : List FTPMsg)
    (hfail : canOpen m.fileName (if m.status = 0 then Mode.trunc else Mode.app) = false) :
    serverLoopBody canOpen m = WriterStep.procExit (-1)
    ∧ serverLoopDrain canOpen (m :: ms) = ([], some (-1)) := by
  have hbody : serverLoopBody canOpen m = WriterStep.procExit (-1) := by
    simp [serverLoopBody, hfail]
  refine ⟨hbody, ?_⟩
  simp [serverLoopDrain, hbody]

/-- Witness for C6 on a one-message backlog whose file cannot be opened. -/
theorem file_open_failure_process_exit_witness :
    serverLoopBody (fun _ _ => false) { fileName := "hello.txt", status := 0, rest := "" }
        = WriterStep.procExit (-1)
    ∧ serverLoopDrain (fun _ _ => false)
        [{ fileName := "hello.txt", status := 0, rest := "" }] = ([], some (-1)) :=
  file_open_failure_process_exit (fun _ _ => false)
    { fileName := "hello.txt", status := 0, rest := "" } [] rfl

/-- Counterexample for C6 as stated: on a failed open the writer's step is a
process exit (`exit(-1)`), not a task-local termination that leaves the rest
of the process running. -/
theorem file_open_failure_counterexample :
    serverLoopBody (fun _ _ => false) { fileName := "hello.txt", status := 0, rest := "" }
      = WriterStep.procExit (-1) := by
  decide

/-- C2 (code bug): on a CLOSE datagram with payload from an active peer the
dispatcher sends `CLOSEACK` and closes the writer's channel, but then still
calls `pushToChannel` for the CLOSE frame itself (the push after the
`switch` is unconditional), and `bufferedChannel::send` on the now-closed
channel throws. -/
theorem close_frame_push_on_closed_channel :
    (FTPServer_listen { sin_addr := 2130706433, sin_port := 5555 } 21
        { mtype := CLOSE, seqnum := 0, dgram_sz := 1, err_num := 0 }
        (fun _ => 0)).events
      = [SrvEvent.sent CLOSEACK (some NO_ERROR) 1,
         SrvEvent.chanClosed "127.0.0.1",
         SrvEvent.pushed "127.0.0.1" 1]
    ∧ bcSend (bcClose (mkWriterChannel String)).1 "x" = SendRes.threw := by
  refine ⟨?_, rfl⟩
  decide

/-- C7 (corrected): in `recvDgram` the `dgram_sz > cap` check runs
unconditionally after the size check and overwrites it, so a frame whose
declared `dgram_sz` exceeds `cap` is classified `BUFF_UNDERSIZED` even when
fewer bytes than the header were received; only otherwise does a short
datagram get `ERROR_BAD_DGRAM`.  In either error case the first response
transmitted has `mtype == ERROR` and `err_num` equal to that code, and on a
valid frame every transmitted response carries `err_num == NO_ERROR`. -/
theorem recv_error_classification_amended (cap bytesIn : Int) (pdu : PDU) (s : Nat)
    (hcap : cap ≤ MAX_DGRAM_SZ) :
    (pdu.dgram_sz > cap →
        (recvDgram cap bytesIn pdu s).responses.head?.map (fun r => (r.mtype, r.err_num))
          = some (ERROR, BUFF_UNDERSIZED))
    ∧ (pdu.dgram_sz ≤ cap → bytesIn < sizeofPDU →
        (recvDgram cap bytesIn pdu s).responses.head?.map (fun r => (r.mtype, r.err_num))
          = some (ERROR, ERROR_BAD_DGRAM))
    ∧ (sizeofPDU ≤ bytesIn → pdu.dgram_sz ≤ cap →
        ∀ r ∈ (recvDgram cap bytesIn pdu s).responses, r.err_num = NO_ERROR) := by
  have hno : ¬ MAX_DGRAM_SZ < cap := by omega
  refine ⟨?_, ?_, ?_⟩
  · intro hov
    by_cases hm1 : pdu.mtype = SND
    · simp [recvDgram, hno, hov, hm1, BUFF_UNDERSIZED, NO_ERROR]
    · by_cases hm2 : pdu.mtype = CLOSE
      · simp [recvDgram, hno, hov, hm1, hm2, BUFF_UNDERSIZED, NO_ERROR,
          show ¬ (CLOSE = SND) by decide]
      · simp [recvDgram, hno, hov, hm1, hm2, BUFF_UNDERSIZED, NO_ERROR]
  · intro hle hshort
    have hov : ¬ pdu.dgram_sz > cap := by omega
    by_cases hm1 : pdu.mtype = SND
    · simp [recvDgram, hno, hov, hshort, hm1, ERROR_BAD_DGRAM, NO_ERROR]
    · by_cases hm2 : pdu.mtype = CLOSE
      · simp [recvDgram, hno, hov, hshort, hm1, hm2, ERROR_BAD_DGRAM, NO_ERROR,
          show ¬ (CLOSE = SND) by decide]
      · simp [recvDgram, hno, hov, hshort, hm1, hm2, ERROR_BAD_DGRAM, NO_ERROR]
  · intro hlong hle
    have hov : ¬ pdu.dgram_sz > cap := by omega
    have hshort : ¬ bytesIn < sizeofPDU := by omega
    by_cases hf : Int.land pdu.mtype FRAGMENT = FRAGMENT
    · simp [recvDgram, hno, hov, hshort, hf]
    · by_cases hm1 : pdu.mtype = SND
      · simp [recvDgram, hno, hov, hshort, hf, hm1,
          show ¬ (Int.land SND FRAGMENT = FRAGMENT) by decide]
      · by_cases hm2 : pdu.mtype = CLOSE
        · simp [recvDgram, hno, hov, hshort, hf, hm1, hm2,
            show ¬ (Int.land CLOSE FRAGMENT = FRAGMENT) by decide,
            show ¬ (CLOSE = SND) by decide]
        · simp [recvDgram, hno, hov, hshort, hf, hm1, hm2]

/-- Witness for C7: scenario 5 of the spec — a 4-byte datagram read out of
the zeroed receive buffer is answered with `mtype == ERROR` and
`err_num == ERROR_BAD_DGRAM`. -/
theorem recv_error_classification_amended_witness :
    (recvDgram 532 4 { mtype := 0, seqnum := 0, dgram_sz := 0, err_num := 0 } 0).responses.head?.map
        (fun r => (r.mtype, r.err_num)) = some (ERROR, ERROR_BAD_DGRAM) :=
  (recv_error_classification_amended 532 4
      { mtype := 0, seqnum := 0, dgram_sz := 0, err_num := 0 } 0 (by decide)).2.1
    (by decide) (by decide)

/-- Counterexample for C7 as stated: an 18-byte datagram (shorter than the
20-byte header, but long enough to deliver the `dgram_sz` field) declaring
`dgram_sz = 9999` is classified `BUFF_UNDERSIZED`, not the claimed
`ERROR_BAD_DGRAM`. -/
theorem short_oversized_frame_counterexample :
    (recvDgram 532 18 { mtype := 0, seqnum := 0, dgram_sz := 9999, err_num := 0 } 0).responses.map
        (fun r => (r.mtype, r.err_num)) = [(ERROR, BUFF_UNDERSIZED)]
    ∧ BUFF_UNDERSIZED ≠ ERROR_BAD_DGRAM := by
  decide

/-- C8 (confirmed): with an initialized peer address and `0 ≤ n`,
`sendDgram(payload, n)` transmits one frame whose `mtype` is `SND` when
`n ≤ MAX_BUFF_SZ` and `SENDFRAGMENT` otherwise, whose `dgram_sz` is
`min(n, MAX_BUFF_SZ)`, whose payload is the first `dgram_sz` payload bytes
copied after the header, and whose header `seqnum` is the pre-send counter;
when `sendto` reports the full `dgram_sz + sizeof(PDU)` bytes, the call
returns `min(n, MAX_BUFF_SZ)` — the payload bytes transmitted, excluding
the header. -/
theorem sendDgram_frame_construction (payload : List Nat) (n : Int) (s : Nat)
    (netSent : Int) (_hn : 0 ≤ n) :
    ∃ fr, (sendDgram true payload n s netSent).frame = some fr
      ∧ fr.mtype = (if n ≤ MAX_BUFF_SZ then SND else SENDFRAGMENT)
      ∧ fr.dgram_sz = min n MAX_BUFF_SZ
      ∧ fr.payload = payload.take (min n MAX_BUFF_SZ).toNat
      ∧ fr.seqnum = s
      ∧ (netSent = min n MAX_BUFF_SZ + sizeofPDU →
          (sendDgram true payload n s netSent).ret = min n MAX_BUFF_SZ) := by
  have hmin : (if n > MAX_BUFF_SZ then MAX_BUFF_SZ else n) = min n MAX_BUFF_SZ := by
    rw [min_def]
    by_cases h : n ≤ MAX_BUFF_SZ
    · rw [if_neg (by omega), if_pos h]
    · rw [if_pos (by omega), if_neg h]
  refine ⟨_, rfl, ?_, ?_, ?_, rfl, ?_⟩
  · show (if n > MAX_BUFF_SZ then SENDFRAGMENT else SND) = _
    by_cases h : n ≤ MAX_BUFF_SZ
    · rw [if_neg (by omega), if_pos h]
    · rw [if_pos (by omega), if_neg h]
  · exact hmin
  · show payload.take (if n > MAX_BUFF_SZ then MAX_BUFF_SZ else n).toNat = _
    rw [hmin]
  · intro hnet
    show netSent - sizeofPDU = min n MAX_BUFF_SZ
    omega

/-- Witness for C8: a 3-byte send with a fully successful `sendto`. -/
theorem sendDgram_frame_construction_witness :
    ∃ fr, (sendDgram true [1, 2, 3] 3 0 23).frame = some fr
      ∧ fr.mtype = (if (3 : Int) ≤ MAX_BUFF_SZ then SND else SENDFRAGMENT)
      ∧ fr.dgram_sz = min 3 MAX_BUFF_SZ
      ∧ fr.payload = [1, 2, 3].take (min (3 : Int) MAX_BUFF_SZ).toNat
      ∧ fr.seqnum = 0
      ∧ ((23 : Int) = min 3 MAX_BUFF_SZ + sizeofPDU →
          (sendDgram true [1, 2, 3] 3 0 23).ret = min 3 MAX_BUFF_SZ) :=
  sendDgram_frame_construction [1, 2, 3] 3 0 23 (by decide)

/-- C9 (corrected): the steal loop of `popOtherThreads` iterates
`i = 0 .. N-1` over `index = (myIndex + i + 1) mod N`, so it visits the
other `N-1` workers' deques in the claimed order `(myIndex + i) mod N` for
`i = 1 .. N-1` — and then, on its final iteration, the worker's own deque
(`(myIndex + N) mod N = myIndex`).  Steals take the back element of a
deque, and `popOtherThreads` returns the first successful steal along that
index sequence; `runPendingTask` resorts to it only after the own-deque pop
and the non-blocking global-queue pop both fail. -/
theorem steal_order_amended (n myIndex : Nat) (hmy : myIndex < n) :
    stealOrder n myIndex
        = ((List.range (n - 1)).map (fun i => (myIndex + i + 1) % n)) ++ [myIndex]
    ∧ (∀ j ∈ (List.range (n - 1)).map (fun i => (myIndex + i + 1) % n), j ≠ myIndex)
    ∧ (∀ (queues : List (WSQ Nat)), queues.length = n →
        popOtherThreads Nat queues myIndex
          = (stealOrder n myIndex).findSome?
              (fun idx => (tryStealAt queues idx).map (fun t => (idx, t))))
    ∧ (∀ (l : List Nat) (x : Nat), wsqTrySteal ⟨l ++ [x]⟩ = some (x, ⟨l⟩))
    ∧ (∀ (queues : List (WSQ Nat)) (i : Nat) (t : Nat),
        popOtherThreads Nat queues myIndex = some (i, t) →
        runPendingTask ⟨[]⟩ [] queues myIndex = TaskSource.stolen i t)
    ∧ (∀ (queues : List (WSQ Nat)),
        popOtherThreads Nat queues myIndex = none →
        runPendingTask ⟨[]⟩ [] queues myIndex = TaskSource.idle) := by
  refine ⟨?_, ?_, ?_, ?_, ?_, ?_⟩
  · have hn : n - 1 + 1 = n := by omega
    have hlast : (myIndex + (n - 1) + 1) % n = myIndex := by
      have h1 : myIndex + (n - 1) + 1 = myIndex + n := by omega
      rw [h1, Nat.add_mod_right, Nat.mod_eq_of_lt hmy]
    have hrange : List.range n = List.range (n - 1) ++ [n - 1] := by
      conv_lhs => rw [← hn]
      rw [List.range_succ]
    rw [stealOrder, hrange, List.map_append, List.map_singleton, hlast]
  · intro j hj
    simp only [List.mem_map, List.mem_range] at hj
    obtain ⟨i, hi, rfl⟩ := hj
    intro heq
    have h1 : (myIndex + (i + 1)) % n = myIndex % n := by
      rw [Nat.mod_eq_of_lt hmy]
      rw [show myIndex + (i + 1) = myIndex + i + 1 by omega]
      exact heq
    have h2 : n ∣ myIndex + (i + 1) - myIndex :=
      (Nat.modEq_iff_dvd' (Nat.le_add_right myIndex (i + 1))).mp h1.symm
    have h3 : n ∣ i + 1 := by simpa using h2
    have h4 : n ≤ i + 1 := Nat.le_of_dvd (by omega) h3
    omega
  · intro queues hlen
    simp only [popOtherThreads, stealOrder, hlen]
    rw [findSome?_map]
  · intro l x
    simp [wsqTrySteal, List.getLast?_concat, List.dropLast_concat]
  · intro queues i t hpop
    simp [runPendingTask, wsqTryPop, hpop]
  · intro queues hpop
    simp [runPendingTask, wsqTryPop, hpop]

/-- Witness for C9 at `N = 4`, `myIndex = 1`: the visit order is
`[2, 3, 0, 1]` — the other three deques in order, then the own deque. -/
theorem steal_order_amended_witness :
    stealOrder 4 1 = ((List.range 3).map (fun i => (1 + i + 1) % 4)) ++ [1] :=
  (steal_order_amended 4 1 (by decide)).1

/-- Counterexample for C9 as stated: with two workers, worker 0's steal loop
visits deque 1 and then its own deque 0, which the claim says is never
visited. -/
theorem steal_order_includes_own_deque :
    stealOrder 2 0 = [1, 0] ∧ (0 : Nat) ∈ stealOrder 2 0 := by
  decide

/-- C10 (confirmed): the dispatcher derives both the writer-map key and the
sequence-table key from `inet_ntoa(sin_addr)` alone — the sender's port is
never consulted — so two peers with equal IPv4 addresses and different
ports produce identical dispatch behaviour (same writer entry, same channel
pushes, same sequence-counter cell), and only the entry keyed by the
dotted-quad address is ever touched. -/
theorem peer_key_ignores_port (s1 s2 : SockAddrIn) (rcvSz : Int) (pdu : PDU)
    (m : String → Nat) (haddr : s1.sin_addr = s2.sin_addr) :
    (FTPServer_listen s1 rcvSz pdu m).events = (FTPServer_listen s2 rcvSz pdu m).events
    ∧ (∀ k, (FTPServer_listen s1 rcvSz pdu m).seqNums k
          = (FTPServer_listen s2 rcvSz pdu m).seqNums k)
    ∧ (∀ e ∈ (FTPServer_listen s1 rcvSz pdu m).events,
        eventAddr e = none ∨ eventAddr e = some (inet_ntoa s1.sin_addr))
    ∧ (∀ k, k ≠ inet_ntoa s1.sin_addr →
        (FTPServer_listen s1 rcvSz pdu m).seqNums k = m k) := by
  obtain ⟨a1, p1⟩ := s1
  obtain ⟨a2, p2⟩ := s2
  simp only at haddr
  subst haddr
  refine ⟨rfl, fun k => rfl, ?_, ?_⟩
  · intro e he
    simp only [FTPServer_listen] at he
    by_cases hr : rcvSz = sizeofPDU
    · rw [if_pos hr] at he
      simp only [List.mem_cons, List.mem_singleton] at he
      rcases he with rfl | rfl | h
      · left; rfl
      · right; rfl
      · simp at h
    · rw [if_neg hr] at he
      simp only [List.mem_append, List.mem_singleton] at he
      rcases he with he | rfl
      · split_ifs at he
        all_goals
          simp only [List.mem_cons, List.mem_singleton, List.not_mem_nil, or_false] at he
        all_goals
          first
            | exact he.elim
            | (rcases he with rfl | rfl <;> simp [eventAddr])
      · right; rfl
  · intro k hk
    simp only [FTPServer_listen]
    by_cases hr : rcvSz = sizeofPDU
    · rw [if_pos hr]
      simp [updMap, hk]
    · rw [if_neg hr]
      simp [updMap, hk]

/-- Witness for C10: two sockets at 127.0.0.1 with ports 1000 and 2000 give
identical dispatch events. -/
theorem peer_key_ignores_port_witness :
    (FTPServer_listen { sin_addr := 2130706433, sin_port := 1000 } 20
        { mtype := CONNECT, seqnum := 0, dgram_sz := 0, err_num := 0 } (fun _ => 0)).events
      = (FTPServer_listen { sin_addr := 2130706433, sin_port := 2000 } 20
          { mtype := CONNECT, seqnum := 0, dgram_sz := 0, err_num := 0 } (fun _ => 0)).events :=
  (peer_key_ignores_port { sin_addr := 2130706433, sin_port := 1000 }
    { sin_addr := 2130706433, sin_port := 2000 } 20
    { mtype := CONNECT, seqnum := 0, dgram_sz := 0, err_num := 0 } (fun _ => 0) rfl).1

/-- C3 (corrected): restricted to frames that pass validation (received
size at least the header size, declared `dgram_sz` at most the buffer
capacity) and carry a non-negative `dgram_sz`, the per-peer counter
advances by 1 per zero-sized frame and by `dgram_sz` per data frame, each
prefix of the stream leaves the counter at the initial value plus the
unwrapped running increment reduced mod `2^32`, that running increment is
non-decreasing, and after the whole stream the counter equals
`initial + Σ dgram_sz + (count of zero-sized frames)` mod `2^32`.  A frame
failing validation advances the counter by exactly 1 regardless of its
`dgram_sz`.  The step function is exactly the update performed by
`Connection::recvDgram` and by `FTPServer::listen` on the peer's
sequence-map entry. -/
theorem seq_counter_stream_amended (cap : Int) (s : Nat) (fs : List Frame)
    (hs : s < 2 ^ 32)
    (hv : ∀ f ∈ fs, frameValid cap f = true ∧ 0 ≤ f.dgram_sz) :
    streamRun cap s fs = (s + (sumDgram fs + countZero fs)) % 2 ^ 32
    ∧ (∀ k, streamRun cap s (fs.take k) = (s + incSum (fs.take k)) % 2 ^ 32)
    ∧ (∀ i j, i ≤ j → incSum (fs.take i) ≤ incSum (fs.take j))
    ∧ (∀ (s' : Nat) (f : Frame), frameValid cap f = false →
        seqStep cap s' f = (s' + 1) % 2 ^ 32)
    ∧ (∀ (bytesIn : Int) (pdu : PDU) (s' : Nat), cap ≤ MAX_DGRAM_SZ →
        (recvDgram cap bytesIn pdu s').seq
          = seqStep cap s' { rcvSz := bytesIn, dgram_sz := pdu.dgram_sz })
    ∧ (∀ (sock : SockAddrIn) (rcvSz : Int) (pdu : PDU) (m : String → Nat),
        rcvSz ≠ sizeofPDU →
        (FTPServer_listen sock rcvSz pdu m).seqNums (inet_ntoa sock.sin_addr)
          = seqStep MAX_DGRAM_SZ (m (inet_ntoa sock.sin_addr))
              { rcvSz := rcvSz, dgram_sz := pdu.dgram_sz }) := by
  refine ⟨?_, ?_, ?_, ?_, ?_, ?_⟩
  · rw [streamRun_valid cap fs s hs hv, incSum_split]
  · intro k
    exact streamRun_valid cap (fs.take k) s hs
      (fun f hf => hv f (List.mem_of_mem_take hf))
  · intro i j hij
    exact incSum_take_mono fs hij
  · exact fun s' f h => seqStep_invalid cap s' f h
  · intro bytesIn pdu s' hcap
    simp only [recvDgram, seqStep]
    rw [if_neg (show ¬ MAX_DGRAM_SZ < cap by omega)]
    split_ifs <;> rfl
  · intro sock rcvSz pdu m hne
    simp only [FTPServer_listen, seqStep]
    rw [if_neg hne]
    simp only [updMap, if_pos rfl]
    split_ifs <;> rfl

/-- Witness for C3: two valid frames (500 data bytes, then a zero-sized
frame) starting from counter 1. -/
theorem seq_counter_stream_amended_witness :
    streamRun 532 1 [{ rcvSz := 532, dgram_sz := 500 }, { rcvSz := 25, dgram_sz := 0 }]
      = (1 + (sumDgram [{ rcvSz := 532, dgram_sz := 500 }, { rcvSz := 25, dgram_sz := 0 }]
          + countZero [{ rcvSz := 532, dgram_sz := 500 }, { rcvSz := 25, dgram_sz := 0 }]))
        % 2 ^ 32 :=
  (seq_counter_stream_amended 532 1
    [{ rcvSz := 532, dgram_sz := 500 }, { rcvSz := 25, dgram_sz := 0 }]
    (by norm_num) (by decide)).1

/-- Counterexample for C3 as stated: a frame declaring `dgram_sz = 600`
against the 532-byte buffer fails validation, and the code advances the
counter by exactly 1 — not by its `dgram_sz` as the claim requires for a
frame with `dgram_sz ≠ 0`. -/
theorem seq_counter_invalid_frame_counterexample :
    seqStep 532 0 { rcvSz := 540, dgram_sz := 600 } = 1 ∧ (1 : Nat) ≠ 600 := by
  decide

/-- C1 (corrected): for a datagram with a complete header,
`Connection::recvDgram` sends exactly one response — `SNDACK`,
`SENDFRAGMENTACK` or `CLOSEACK` — when the frame is valid and its `mtype`
is a fragment, `SND` or `CLOSE`, and no response at all for any other
`mtype`; on a frame failing validation the first response is `ERROR`, and
when that frame's `mtype` is `SND` or `CLOSE` a second ACK response
follows it (the error branch falls through into the `switch`).
`FTPServer::listen` pushes the payload only once and only after every
response it sends (the push is the last event), sends exactly one response
for an invalid, fragment, `SND` or `CLOSE` frame and none for any other
`mtype`, and answers a connect-sized datagram with exactly one `CNTACK`
before creating the writer. -/
theorem response_discipline_amended :
    (∀ (cap bytesIn : Int) (pdu : PDU) (s : Nat),
        cap ≤ MAX_DGRAM_SZ → sizeofPDU ≤ bytesIn → pdu.dgram_sz ≤ cap →
        (recvDgram cap bytesIn pdu s).responses.length
            = (if ackable pdu.mtype then 1 else 0)
          ∧ ∀ r ∈ (recvDgram cap bytesIn pdu s).responses,
              r.mtype = SNDACK ∨ r.mtype = SENDFRAGMENTACK ∨ r.mtype = CLOSEACK)
    ∧ (∀ (cap bytesIn : Int) (pdu : PDU) (s : Nat),
        cap ≤ MAX_DGRAM_SZ → (bytesIn < sizeofPDU ∨ pdu.dgram_sz > cap) →
        (recvDgram cap bytesIn pdu s).responses.head?.map PDU.mtype = some ERROR
          ∧ (recvDgram cap bytesIn pdu s).responses.length
              = (if pdu.mtype = SND ∨ pdu.mtype = CLOSE then 2 else 1))
    ∧ (∀ (sock : SockAddrIn) (rcvSz : Int) (pdu : PDU) (m : String → Nat),
        rcvSz ≠ sizeofPDU →
        (FTPServer_listen sock rcvSz pdu m).events.getLast?
            = some (SrvEvent.pushed (inet_ntoa sock.sin_addr) (rcvSz - sizeofPDU))
          ∧ ((FTPServer_listen sock rcvSz pdu m).events.dropLast.all
              (fun e => !isPushed e)) = true
          ∧ ((FTPServer_listen sock rcvSz pdu m).events.filter isSent).length
              = (if rcvSz < sizeofPDU ∨ pdu.dgram_sz > MAX_DGRAM_SZ then 1
                 else if ackable pdu.mtype then 1 else 0))
    ∧ (∀ (sock : SockAddrIn) (pdu : PDU) (m : String → Nat),
        (FTPServer_listen sock sizeofPDU pdu m).events
          = [SrvEvent.sent CNTACK none 1, SrvEvent.writerCreated (inet_ntoa sock.sin_addr)]) := by
  refine ⟨?_, ?_, ?_, ?_⟩
  · intro cap bytesIn pdu s hcap hlong hle
    have hno : ¬ MAX_DGRAM_SZ < cap := by omega
    have hov : ¬ pdu.dgram_sz > cap := by omega
    have hshort : ¬ bytesIn < sizeofPDU := by omega
    by_cases hf : Int.land pdu.mtype FRAGMENT = FRAGMENT
    · simp [recvDgram, hno, hov, hshort, hf, ackable]
    · by_cases hm1 : pdu.mtype = SND
      · simp [recvDgram, hno, hov, hshort, hf, hm1, ackable,
          show ¬ (Int.land SND FRAGMENT = FRAGMENT) by decide]
      · by_cases hm2 : pdu.mtype = CLOSE
        · simp [recvDgram, hno, hov, hshort, hf, hm1, hm2, ackable,
            show ¬ (Int.land CLOSE FRAGMENT = FRAGMENT) by decide,
            show ¬ (CLOSE = SND) by decide]
        · simp [recvDgram, hno, hov, hshort, hf, hm1, hm2, ackable]
  · intro cap bytesIn pdu s hcap herr
    have hno : ¬ MAX_DGRAM_SZ < cap := by omega
    by_cases hov : pdu.dgram_sz > cap
    · by_cases hm1 : pdu.mtype = SND
      · simp [recvDgram, hno, hov, hm1, BUFF_UNDERSIZED, NO_ERROR]
      · by_cases hm2 : pdu.mtype = CLOSE
        · simp [recvDgram, hno, hov, hm1, hm2, BUFF_UNDERSIZED, NO_ERROR,
            show ¬ (CLOSE = SND) by decide]
        · simp [recvDgram, hno, hov, hm1, hm2, BUFF_UNDERSIZED, NO_ERROR]
    · have hshort : bytesIn < sizeofPDU := by tauto
      by_cases hm1 : pdu.mtype = SND
      · simp [recvDgram, hno, hov, hshort, hm1, ERROR_BAD_DGRAM, NO_ERROR]
      · by_cases hm2 : pdu.mtype = CLOSE
        · simp [recvDgram, hno, hov, hshort, hm1, hm2, ERROR_BAD_DGRAM, NO_ERROR,
            show ¬ (CLOSE = SND) by decide]
        · simp [recvDgram, hno, hov, hshort, hm1, hm2, ERROR_BAD_DGRAM, NO_ERROR]
  · intro sock rcvSz pdu m hne
    simp only [FTPServer_listen, if_neg hne]
    refine ⟨?_, ?_, ?_⟩
    · split_ifs <;> simp [List.getLast?_concat]
    · split_ifs <;> simp [List.dropLast_concat, isPushed]
    · by_cases h2 : pdu.dgram_sz > MAX_DGRAM_SZ
      · simp [h2, isSent, BUFF_UNDERSIZED, NO_ERROR]
      · by_cases h1 : rcvSz < sizeofPDU
        · simp [h1, h2, isSent, ERROR_BAD_DGRAM, NO_ERROR]
        · by_cases hf : Int.land pdu.mtype FRAGMENT = FRAGMENT
          · simp [h1, h2, hf, isSent, NO_ERROR, ackable]
          · by_cases hm1 : pdu.mtype = SND
            · simp [h1, h2, hf, hm1, isSent, NO_ERROR, ackable,
                show ¬ (Int.land SND FRAGMENT = FRAGMENT) by decide]
            · by_cases hm2 : pdu.mtype = CLOSE
              · simp [h1, h2, hf, hm1, hm2, isSent, NO_ERROR, ackable,
                  show ¬ (Int.land CLOSE FRAGMENT = FRAGMENT) by decide,
                  show ¬ (CLOSE = SND) by decide]
              · simp [h1, h2, hf, hm1, hm2, isSent, NO_ERROR, ackable]
  · intro sock pdu m
    simp [FTPServer_listen]

/-- Witness for C1: a valid `SND` frame through `recvDgram` draws exactly
one response, and a connect-sized datagram through `listen` draws exactly
the `CNTACK` and the writer creation. -/
theorem response_discipline_amended_witness :
    ((recvDgram 532 25 { mtype := SND, seqnum := 0, dgram_sz := 5, err_num := 0 } 0).responses.length
        = (if ackable SND then 1 else 0))
    ∧ (FTPServer_listen { sin_addr := 2130706433, sin_port := 7 } sizeofPDU
        { mtype := CONNECT, seqnum := 0, dgram_sz := 0, err_num := 0 } (fun _ => 0)).events
        = [SrvEvent.sent CNTACK none 1, SrvEvent.writerCreated (inet_ntoa 2130706433)] :=
  ⟨(response_discipline_amended.1 532 25
      { mtype := SND, seqnum := 0, dgram_sz := 5, err_num := 0 } 0
      (by decide) (by decide) (by decide)).1,
   response_discipline_amended.2.2.2 { sin_addr := 2130706433, sin_port := 7 }
      { mtype := CONNECT, seqnum := 0, dgram_sz := 0, err_num := 0 } (fun _ => 0)⟩

/-- Counterexample for C1 as stated: a well-formed datagram whose `mtype`
is `CONNECT` (the header is complete, `dgram_sz = 0 ≤ cap`) elicits zero
response PDUs from `recvDgram` — not exactly one. -/
theorem connect_mtype_zero_responses :
    (recvDgram 532 20 { mtype := CONNECT, seqnum := 0, dgram_sz := 0, err_num := 0 } 0).responses
        = []
    ∧ ¬ ((recvDgram 532 20 { mtype := CONNECT, seqnum := 0, dgram_sz := 0, err_num := 0 } 0).responses.length
        = 1) := by
  decide

end FTPVerif
